import Mathlib

/-!
Verification of great_expectations/data_context/util.py.

The file shallowly embeds the two utilities of the module:
  * instantiate_class_from_config (class instantiator), and
  * find_substitution_candidates / substitute_config_variable /
    substitute_all_config_variables (variable substitution engine).

Strings are modelled as lists of characters so that Python character-offset
slicing (template_str[:start] + value + template_str[end:]) is exact.
Python dict mutation is modelled by explicit state passing: functions that
mutate a caller-supplied mapping return its final state.  The possibly
nonterminating while loop of substitute_config_variable (a store splice
re-scans the string and can grow the candidate queue forever on cyclic
stores) is embedded with an explicit fuel parameter.
-/

/-- A located placeholder occurrence, as built at util.py lines 129-136.
Source dict keys: "match" (the raw matched text, here matchText),
"clean_match", "start", "end" (here endPos). -/
structure SubstitutionCandidate where
  matchText : List Char
  clean_match : List Char
  start : Nat
  endPos : Nat
deriving DecidableEq

/-- Python values appearing in config structures: None, strings, ints,
booleans, dicts (ordered key/value lists) and lists. -/
inductive Value where
  | none
  | str (s : List Char)
  | int (n : Int)
  | bool (b : Bool)
  | dict (entries : List (List Char × Value))
  | list (items : List Value)

/-- Constructor tag, used to observe that two values differ. -/
def Value.tag : Value → Nat
  | .none => 0
  | .str _ => 1
  | .int _ => 2
  | .bool _ => 3
  | .dict _ => 4
  | .list _ => 5

/-- isinstance(v, str) of util.py line 183. -/
def Value.isStr : Value → Bool
  | .str _ => true
  | _ => false

/-- v is None. -/
def Value.isNone : Value → Bool
  | .none => true
  | _ => false

/-- The config variable store: a mapping from names to values. -/
abbrev Dict := List (List Char × Value)

/-- The process environment: a mapping from names to strings. -/
abbrev EnvMap := List (List Char × List Char)

/-- First-match association list lookup; models Python dict lookup
(keys are unique in Python dicts). -/
def alistGet {β : Type} : List (List Char × β) → List Char → Option β
  | [], _ => Option.none
  | (k, v) :: rest, key => if k = key then Option.some v else alistGet rest key

/-- Removal of a key; models dict.pop on unique-key dicts. -/
def alistErase {β : Type} : List (List Char × β) → List Char →
    List (List Char × β)
  | [], _ => []
  | (k, v) :: rest, key =>
    if k = key then alistErase rest key else (k, v) :: alistErase rest key

/-- d[key] = v on an ordered dict: replace in place when the key exists,
append otherwise. -/
def dictSet : Dict → List Char → Value → Dict
  | [], key, v => [(key, v)]
  | (k, w) :: rest, key, v =>
    if k = key then (k, v) :: rest else (k, w) :: dictSet rest key v

/-- d.update(other): iterate other, set each entry. -/
def dictUpdate (d other : Dict) : Dict :=
  other.foldl (fun acc e => dictSet acc e.1 e.2) d

/-- First character of an identifier: [_a-zA-Z]. -/
def isIdentStart (c : Char) : Bool :=
  (c == '_') || (decide ('a' ≤ c) && decide (c ≤ 'z'))
    || (decide ('A' ≤ c) && decide (c ≤ 'Z'))

/-- Later characters of an identifier: [_a-zA-Z0-9]. -/
def isIdentChar (c : Char) : Bool :=
  isIdentStart c || (decide ('0' ≤ c) && decide (c ≤ '9'))

/-- The lazy brace arm of the regex: after a "$\x7b" prefix, consume up to
the first closing brace; the dot of (.*?) does not match a newline, so a
newline before the closing brace makes the arm fail.  Returns the content
and the remainder after the closing brace. -/
def scanBrace : List Char → Option (List Char × List Char)
  | [] => Option.none
  | c :: rest =>
    if c = '\x7d' then Option.some ([], rest)
    else if c = '\n' then Option.none
    else
      match scanBrace rest with
      | Option.some (content, remaining) => Option.some (c :: content, remaining)
      | Option.none => Option.none

/-- The greedy identifier tail of the bare arm: [_a-zA-Z0-9]*. -/
def scanIdent : List Char → List Char × List Char
  | [] => ([], [])
  | c :: rest =>
    if isIdentChar c then
      let p := scanIdent rest
      (c :: p.1, p.2)
    else ([], c :: rest)

/-- All dollar signs and braces are stripped from the matched text to form
the clean name (util.py lines 124-127). -/
def cleanOf (m : List Char) : List Char :=
  m.filter (fun c => !(c == '$' || c == '\x7b' || c == '\x7d'))

/-- Left-to-right non-overlapping scan of
re.finditer(r"\$\x7b(.*?)\x7d|\$([_a-zA-Z][_a-zA-Z0-9]*)", template_str).
At each position the brace arm is tried first, then the bare arm; on
failure the scan advances one character.  The fuel argument is a step
bound; every step consumes at least one character, so fuel equal to the
string length (as passed by find_substitution_candidates) is always
enough. -/
def findAux : Nat → List Char → Nat → List SubstitutionCandidate
  | 0, _, _ => []
  | _ + 1, [], _ => []
  | fuel + 1, c :: cs, pos =>
    if c = '$' then
      match cs with
      | [] => []
      | c2 :: cs2 =>
        if c2 = '\x7b' then
          match scanBrace cs2 with
          | Option.some (content, rest) =>
            let m : List Char := '$' :: '\x7b' :: (content ++ ['\x7d'])
            { matchText := m, clean_match := cleanOf m, start := pos,
              endPos := pos + m.length } :: findAux fuel rest (pos + m.length)
          | Option.none => findAux fuel cs (pos + 1)
        else if isIdentStart c2 then
          let p := scanIdent cs2
          let m : List Char := '$' :: c2 :: p.1
          { matchText := m, clean_match := cleanOf m, start := pos,
            endPos := pos + m.length } :: findAux fuel p.2 (pos + m.length)
        else findAux fuel cs (pos + 1)
    else findAux fuel cs (pos + 1)

/-- util.py lines 103-138. -/
def find_substitution_candidates (template_str : List Char) :
    List SubstitutionCandidate :=
  findAux template_str.length template_str 0

/-- The exceptions the module can raise. -/
inductive PyError where
  /-- MissingConfigVariableError; carries missing_config_variable. -/
  | missingConfigVariable (missing_config_variable : List Char)
  /-- The bare Exception of util.py lines 195-202: a non-string substitution
  with leading or trailing characters. -/
  | unsupportedSubstitution
  /-- TypeError: re.finditer applied to a non-string, or a non-string value
  concatenated into a string. -/
  | typeError
  /-- KeyError of util.py lines 34-38 and 54-58. -/
  | keyError
  /-- Fuel exhaustion of the embedded while loop; the Python loop would
  still be running. -/
  | fuelExhausted
deriving DecidableEq

/-- os.getenv combined with the truthiness test of util.py lines 169-170
and 224-225: Option.some v exactly when the variable is set to a non-empty
string. -/
def getenvTruthy (env : EnvMap) (name : List Char) : Option (List Char) :=
  match alistGet env name with
  | Option.some v => if v = [] then Option.none else Option.some v
  | Option.none => Option.none

/-- template_str[:start] + value + template_str[end:]. -/
def splice (s : List Char) (c : SubstitutionCandidate) (v : List Char) :
    List Char :=
  s.take c.start ++ v ++ s.drop c.endPos

/-- The while loop of util.py lines 219-250.  One iteration pops the head
candidate; an environment hit splices and continues with the already
queued candidates (stale offsets included); a store hit splices and
re-scans the new string; a store value that is not a string cannot be
concatenated (TypeError); an unresolved name raises
MissingConfigVariableError. -/
def substitutionLoop (env : EnvMap) (store : Dict) :
    Nat → List Char → List SubstitutionCandidate →
    Except PyError (List Char)
  | _, template_str, [] => .ok template_str
  | 0, _, _ :: _ => .error .fuelExhausted
  | fuel + 1, template_str, c :: rest =>
    match getenvTruthy env c.clean_match with
    | Option.some v => substitutionLoop env store fuel (splice template_str c v) rest
    | Option.none =>
      match alistGet store c.clean_match with
      | Option.some (.str v) =>
        let t := splice template_str c v
        substitutionLoop env store fuel t (find_substitution_candidates t)
      | Option.some _ => .error .typeError
      | Option.none => .error (.missingConfigVariable c.clean_match)

/-- util.py lines 141-304.  A None template is returned unchanged; any
other non-string raises TypeError inside find_substitution_candidates.
With exactly one candidate the dedicated branch of lines 164-215 runs (its
re-scan, lines 204-206, is commented out in the source, so the candidate
queue is empty afterwards); the remaining queue is then consumed by the
while loop of lines 219-250. -/
def substitute_config_variable (fuel : Nat) (env : EnvMap)
    (template_str : Value) (config_variables_dict : Dict) :
    Except PyError Value :=
  match template_str with
  | .none => .ok .none
  | .str s =>
    match find_substitution_candidates s with
    | [] => .ok (.str s)
    | [c] =>
      match getenvTruthy env c.clean_match with
      | Option.some v => .ok (.str (splice s c v))
      | Option.none =>
        match alistGet config_variables_dict c.clean_match with
        | Option.some (.str v) => .ok (.str (splice s c v))
        | Option.some v =>
          if c.matchText = s then .ok v else .error .unsupportedSubstitution
        | Option.none => .error (.missingConfigVariable c.clean_match)
    | c :: c2 :: rest =>
      Except.map Value.str
        (substitutionLoop env config_variables_dict fuel s (c :: c2 :: rest))
  | _ => .error .typeError

mutual
/-- util.py lines 307-330: recursive traversal that rebuilds dicts with the
same keys and lists with the same length, and sends every other value to
substitute_config_variable.  The DataContextConfig branch of lines 318-319
concerns an external class and is outside the embedded value type. -/
def substitute_all_config_variables (fuel : Nat) (env : EnvMap)
    (data : Value) (replace_variables_dict : Dict) : Except PyError Value :=
  match data with
  | .dict entries =>
    Except.map Value.dict
      (substituteAllEntries fuel env entries replace_variables_dict)
  | .list items =>
    Except.map Value.list
      (substituteAllItems fuel env items replace_variables_dict)
  | v => substitute_config_variable fuel env v replace_variables_dict

/-- The dict comprehension of util.py lines 322-325. -/
def substituteAllEntries (fuel : Nat) (env : EnvMap)
    (entries : List (List Char × Value)) (replace_variables_dict : Dict) :
    Except PyError (List (List Char × Value)) :=
  match entries with
  | [] => .ok []
  | (k, v) :: rest =>
    match substitute_all_config_variables fuel env v replace_variables_dict with
    | .error e => .error e
    | .ok w =>
      match substituteAllEntries fuel env rest replace_variables_dict with
      | .error e => .error e
      | .ok rest2 => .ok ((k, w) :: rest2)

/-- The list comprehension of util.py lines 327-329. -/
def substituteAllItems (fuel : Nat) (env : EnvMap)
    (items : List Value) (replace_variables_dict : Dict) :
    Except PyError (List Value) :=
  match items with
  | [] => .ok []
  | v :: rest =>
    match substitute_all_config_variables fuel env v replace_variables_dict with
    | .error e => .error e
    | .ok w =>
      match substituteAllItems fuel env rest replace_variables_dict with
      | .error e => .error e
      | .ok rest2 => .ok (w :: rest2)
end

/-- The key "module_name". -/
def moduleNameKey : List Char := "module_name".data

/-- The key "class_name". -/
def classNameKey : List Char := "class_name".data

/-- The key "runtime_environment". -/
def runtimeEnvironmentKey : List Char := "runtime_environment".data

/-- The successful outcome of instantiate_class_from_config.  The external
loader and the construction call itself are collaborators outside this
module; the record holds the values the module hands them: the resolved
module and class names and the keyword arguments of the construction call.
config_with_defaults is the merged argument set of util.py lines 65-66,
before the runtime-environment step. -/
structure InstantiateOk where
  module_name : Value
  class_name : Value
  config_with_defaults : Dict
  kwargs : Dict

/-- The full observable effect of a call: the outcome plus the final states
of the two caller-supplied mappings.  Mutations made before an exception
persist, as they do for the Python caller. -/
structure InstantiateResult where
  outcome : Except PyError InstantiateOk
  config_after : Dict
  config_defaults_after : Dict

/-- The runtime-environment step of util.py lines 67-82.  missing_args is
computed against the merged set once; the requested runtime entries are
merged in, and when the constructor declares a parameter named
runtime_environment that was missing, the whole mapping is injected under
that key afterwards. -/
def runtimeEnvironmentStep (config_with_defaults : Dict)
    (runtime_environment : Dict) (argspec : List (List Char)) : Dict :=
  let missing_args := argspec.filter
    (fun a => (alistGet config_with_defaults a).isNone)
  let requested := missing_args.filterMap
    (fun a => (alistGet runtime_environment a).map (fun v => (a, v)))
  let updated := dictUpdate config_with_defaults requested
  if runtimeEnvironmentKey ∈ missing_args then
    dictUpdate updated [(runtimeEnvironmentKey, .dict runtime_environment)]
  else updated

/-- util.py lines 63-94: config_with_defaults is a deep copy of the
depleted defaults updated with the remaining config entries; the
runtime-environment step runs only when a runtime environment was
provided. -/
def instantiateFinish (getfullargspec : Value → Value → List (List Char))
    (config : Dict) (runtime_environment : Option Dict)
    (cfg defaults2 : Dict) (module_name class_name : Value) :
    InstantiateResult :=
  let config_with_defaults := dictUpdate defaults2 cfg
  let kwargs :=
    match runtime_environment with
    | Option.some re =>
      runtimeEnvironmentStep config_with_defaults re
        (getfullargspec module_name class_name)
    | Option.none => config_with_defaults
  { outcome := .ok
      { module_name := module_name, class_name := class_name,
        config_with_defaults := config_with_defaults, kwargs := kwargs },
    config_after := config,
    config_defaults_after := defaults2 }
/-- util.py lines 45-94: class_name resolution (the warning of lines 47-50
is a log side effect only), the merge of lines 65-66, the
runtime-environment step and the construction call. -/
def instantiateRest (getfullargspec : Value → Value → List (List Char))
    (config : Dict) (runtime_environment : Option Dict)
    (cfg defaults1 : Dict) (module_name : Value) : InstantiateResult :=
  let class_name0 := (alistGet cfg classNameKey).getD Value.none
  let cfg := alistErase cfg classNameKey
  match class_name0.isNone with
  | true =>
    match alistGet defaults1 classNameKey with
    | Option.none =>
      { outcome := .error .keyError, config_after := config,
        config_defaults_after := defaults1 }
    | Option.some class_name =>
      let defaults2 := alistErase defaults1 classNameKey
      instantiateFinish getfullargspec config runtime_environment cfg
        defaults2 module_name class_name
  | false =>
    let defaults2 := alistErase defaults1 classNameKey
    instantiateFinish getfullargspec config runtime_environment cfg
      defaults2 module_name class_name0

/-- Left-biased choice on options, used to state dictionary update
lookups. -/
def optOr {α : Type} : Option α → Option α → Option α
  | Option.some v, _ => Option.some v
  | Option.none, b => b

/-- Observation of a substitution result: the character list of a
successful string result, and the empty list otherwise. -/
def strOfResult : Except PyError Value → List Char
  | .ok (.str l) => l
  | _ => []

/-- util.py lines 21-94.  The external collaborators load_class and
inspect.getfullargspec are abstracted into the getfullargspec parameter,
which returns the declared constructor parameter names (without self) of
the class resolved from the given module and class names; the construction
call itself is external, so the embedding returns the keyword arguments it
receives.  config is deep-copied at line 27, so the caller copy is
returned untouched; config_defaults is mutated in place by the pops of
lines 32, 41, 52 and 61. -/
def instantiate_class_from_config
    (getfullargspec : Value → Value → List (List Char))
    (config : Dict) (runtime_environment : Option Dict)
    (config_defaults : Option Dict) : InstantiateResult :=
  let defaults0 := config_defaults.getD []
  -- config = copy.deepcopy(config): cfg is the private copy
  let cfg := config
  -- module_name = config.pop("module_name", None)
  let module_name0 := (alistGet cfg moduleNameKey).getD Value.none
  let cfg := alistErase cfg moduleNameKey
  match module_name0.isNone with
  | true =>
    -- module_name = config_defaults.pop("module_name"), KeyError when absent
    match alistGet defaults0 moduleNameKey with
    | Option.none =>
      { outcome := .error .keyError, config_after := config,
        config_defaults_after := defaults0 }
    | Option.some module_name =>
      let defaults1 := alistErase defaults0 moduleNameKey
      instantiateRest getfullargspec config runtime_environment cfg
        defaults1 module_name
  | false =>
    -- config_defaults.pop("module_name", None): discard without using
    let defaults1 := alistErase defaults0 moduleNameKey
    instantiateRest getfullargspec config runtime_environment cfg
      defaults1 module_name0


/-! ### Dictionary lemmas -/

theorem alistGet_erase_self {β : Type} (d : List (List Char × β))
    (key : List Char) : alistGet (alistErase d key) key = Option.none := by
  induction d with
  | nil => rfl
  | cons e rest ih =>
    obtain ⟨k, v⟩ := e
    by_cases h : k = key
    · simpa [alistErase, h] using ih
    · simpa [alistErase, alistGet, h] using ih

theorem alistGet_erase_ne {β : Type} (d : List (List Char × β))
    (key q : List Char) (hq : q ≠ key) :
    alistGet (alistErase d key) q = alistGet d q := by
  induction d with
  | nil => rfl
  | cons e rest ih =>
    obtain ⟨k, v⟩ := e
    by_cases h : k = key
    · have h1 : ¬(key = q) := fun hk => hq hk.symm
      simp [alistErase, alistGet, h, h1, ih]
    · by_cases h2 : k = q
      · simp [alistErase, alistGet, h, h2, hq]
      · simp [alistErase, alistGet, h, h2, ih]

theorem alistGet_dictSet (d : Dict) (key q : List Char) (v : Value) :
    alistGet (dictSet d key v) q =
      if key = q then Option.some v else alistGet d q := by
  induction d with
  | nil => by_cases h : key = q <;> simp [dictSet, alistGet, h]
  | cons e rest ih =>
    obtain ⟨k, w⟩ := e
    by_cases h : k = key
    · subst h
      by_cases h2 : k = q <;> simp [dictSet, alistGet, h2]
    · by_cases h2 : k = q
      · subst h2
        have : ¬(key = k) := fun hk => h hk.symm
        simp [dictSet, alistGet, h, this]
      · simp [dictSet, alistGet, h, h2, ih]

theorem dictUpdate_nil (d : Dict) : dictUpdate d [] = d := rfl

theorem dictUpdate_cons (d : Dict) (k : List Char) (v : Value) (o : Dict) :
    dictUpdate d ((k, v) :: o) = dictUpdate (dictSet d k v) o := rfl

theorem dictUpdate_singleton (d : Dict) (k : List Char) (v : Value) :
    dictUpdate d [(k, v)] = dictSet d k v := rfl

theorem alistGet_dictUpdate_requested (re : Dict) :
    ∀ (l : List (List Char)) (d : Dict) (q : List Char),
    alistGet
        (dictUpdate d (l.filterMap fun a => (alistGet re a).map (fun v => (a, v)))) q
      = optOr (if q ∈ l then alistGet re q else Option.none) (alistGet d q) := by
  intro l
  induction l with
  | nil => intro d q; simp [dictUpdate_nil, optOr]
  | cons a l ih =>
    intro d q
    cases hra : alistGet re a with
    | none =>
      rw [List.filterMap_cons_none (by simp [hra])]
      rw [ih d q]
      by_cases hqa : q = a
      · subst hqa
        by_cases hql : q ∈ l <;> simp [hql, hra, optOr]
      · simp [List.mem_cons, hqa]
    | some v =>
      rw [List.filterMap_cons_some (b := (a, v)) (by simp [hra])]
      rw [dictUpdate_cons, ih (dictSet d a v) q, alistGet_dictSet]
      by_cases hqa : q = a
      · subst hqa
        by_cases hql : q ∈ l <;> simp [hql, hra, optOr]
      · have hqa2 : ¬(a = q) := fun hk => hqa hk.symm
        simp [List.mem_cons, hqa, hqa2]

/-! ### Runtime-environment step lemmas -/

theorem runtimeEnvironmentStep_lookup (cwd re : Dict)
    (argspec : List (List Char)) (p : List Char)
    (hmem : p ∈ argspec) (hnone : alistGet cwd p = Option.none) :
    (p ≠ runtimeEnvironmentKey → ∀ v, alistGet re p = Option.some v →
        alistGet (runtimeEnvironmentStep cwd re argspec) p = Option.some v)
    ∧ (p = runtimeEnvironmentKey →
        alistGet (runtimeEnvironmentStep cwd re argspec) p =
          Option.some (.dict re)) := by
  have hpm : p ∈ argspec.filter (fun a => (alistGet cwd a).isNone) :=
    List.mem_filter.mpr ⟨hmem, by simp [hnone]⟩
  constructor
  · intro hne v hv
    simp only [runtimeEnvironmentStep]
    by_cases hrt : runtimeEnvironmentKey ∈
        argspec.filter (fun a => (alistGet cwd a).isNone)
    · rw [if_pos hrt, dictUpdate_singleton, alistGet_dictSet,
        if_neg (fun hk => hne hk.symm),
        alistGet_dictUpdate_requested, if_pos hpm, hv]
      rfl
    · rw [if_neg hrt, alistGet_dictUpdate_requested, if_pos hpm, hv]
      rfl
  · intro heq
    subst heq
    simp only [runtimeEnvironmentStep]
    rw [if_pos hpm, dictUpdate_singleton, alistGet_dictSet, if_pos rfl]

/-! ### Instantiator inversion and frame lemmas -/

theorem instantiateFinish_outcome (f : Value → Value → List (List Char))
    (config : Dict) (ro : Option Dict) (cfg d2 : Dict) (mn cn : Value) :
    (instantiateFinish f config ro cfg d2 mn cn).outcome = Except.ok
      { module_name := mn, class_name := cn,
        config_with_defaults := dictUpdate d2 cfg,
        kwargs :=
          match ro with
          | Option.some re =>
            runtimeEnvironmentStep (dictUpdate d2 cfg) re (f mn cn)
          | Option.none => dictUpdate d2 cfg } := rfl

theorem instantiateFinish_config_after (f : Value → Value → List (List Char))
    (config : Dict) (ro : Option Dict) (cfg d2 : Dict) (mn cn : Value) :
    (instantiateFinish f config ro cfg d2 mn cn).config_after = config := rfl

theorem instantiateFinish_defaults_after (f : Value → Value → List (List Char))
    (config : Dict) (ro : Option Dict) (cfg d2 : Dict) (mn cn : Value) :
    (instantiateFinish f config ro cfg d2 mn cn).config_defaults_after = d2 := rfl

theorem instantiateFinish_ok_names (f : Value → Value → List (List Char))
    (config : Dict) (ro : Option Dict) (cfg d2 : Dict) (mn cn : Value)
    (res : InstantiateOk)
    (h : (instantiateFinish f config ro cfg d2 mn cn).outcome = .ok res) :
    res.module_name = mn ∧ res.class_name = cn := by
  rw [instantiateFinish_outcome] at h
  injection h with h
  subst h
  exact ⟨rfl, rfl⟩

theorem instantiateFinish_ok_kwargs (f : Value → Value → List (List Char))
    (config : Dict) (re : Dict) (cfg d2 : Dict) (mn cn : Value)
    (res : InstantiateOk)
    (h : (instantiateFinish f config (Option.some re) cfg d2 mn cn).outcome
      = .ok res) :
    res.kwargs =
      runtimeEnvironmentStep res.config_with_defaults re
        (f res.module_name res.class_name) := by
  rw [instantiateFinish_outcome] at h
  injection h with h
  subst h
  rfl

theorem instantiateRest_config_after (f : Value → Value → List (List Char))
    (config : Dict) (ro : Option Dict) (cfg d1 : Dict) (mn : Value) :
    (instantiateRest f config ro cfg d1 mn).config_after = config := by
  unfold instantiateRest
  cases hb : ((alistGet cfg classNameKey).getD Value.none).isNone with
  | true =>
    simp only [hb]
    cases hd : alistGet d1 classNameKey with
    | none => rfl
    | some cn => rfl
  | false => simp only [hb]; rfl

theorem instantiateRest_defaults_after (f : Value → Value → List (List Char))
    (config : Dict) (ro : Option Dict) (cfg d1 : Dict) (mn : Value)
    (k : List Char) (hk : k ≠ classNameKey) :
    alistGet (instantiateRest f config ro cfg d1 mn).config_defaults_after k
      = alistGet d1 k := by
  unfold instantiateRest
  cases hb : ((alistGet cfg classNameKey).getD Value.none).isNone with
  | true =>
    simp only [hb]
    cases hd : alistGet d1 classNameKey with
    | none => rfl
    | some cn =>
      simp only [instantiateFinish_defaults_after]
      exact alistGet_erase_ne _ _ _ hk
  | false =>
    simp only [hb, instantiateFinish_defaults_after]
    exact alistGet_erase_ne _ _ _ hk

theorem instantiateRest_ok_module (f : Value → Value → List (List Char))
    (config : Dict) (ro : Option Dict) (cfg d1 : Dict) (mn : Value)
    (res : InstantiateOk)
    (h : (instantiateRest f config ro cfg d1 mn).outcome = .ok res) :
    res.module_name = mn := by
  unfold instantiateRest at h
  cases hb : ((alistGet cfg classNameKey).getD Value.none).isNone with
  | true =>
    simp only [hb] at h
    cases hd : alistGet d1 classNameKey with
    | none => simp [hd] at h
    | some cn =>
      simp only [hd] at h
      exact (instantiateFinish_ok_names _ _ _ _ _ _ _ _ h).1
  | false =>
    simp only [hb] at h
    exact (instantiateFinish_ok_names _ _ _ _ _ _ _ _ h).1

theorem instantiateRest_ok_class_of_config
    (f : Value → Value → List (List Char))
    (config : Dict) (ro : Option Dict) (cfg d1 : Dict) (mn : Value)
    (res : InstantiateOk) (cn : Value)
    (hc : alistGet cfg classNameKey = Option.some cn)
    (hcn : cn.isNone = false)
    (h : (instantiateRest f config ro cfg d1 mn).outcome = .ok res) :
    res.class_name = cn := by
  unfold instantiateRest at h
  simp only [hc, Option.getD_some, hcn] at h
  exact (instantiateFinish_ok_names _ _ _ _ _ _ _ _ h).2

theorem instantiateRest_ok_class_of_defaults
    (f : Value → Value → List (List Char))
    (config : Dict) (ro : Option Dict) (cfg d1 : Dict) (mn : Value)
    (res : InstantiateOk) (cn : Value)
    (hc : ((alistGet cfg classNameKey).getD Value.none).isNone = true)
    (hd : alistGet d1 classNameKey = Option.some cn)
    (h : (instantiateRest f config ro cfg d1 mn).outcome = .ok res) :
    res.class_name = cn := by
  unfold instantiateRest at h
  simp only [hc, hd] at h
  exact (instantiateFinish_ok_names _ _ _ _ _ _ _ _ h).2

theorem instantiateRest_error_class_missing
    (f : Value → Value → List (List Char))
    (config : Dict) (ro : Option Dict) (cfg d1 : Dict) (mn : Value)
    (hc : ((alistGet cfg classNameKey).getD Value.none).isNone = true)
    (hd : alistGet d1 classNameKey = Option.none) :
    (instantiateRest f config ro cfg d1 mn).outcome = .error .keyError := by
  unfold instantiateRest
  simp only [hc, hd]

theorem instantiateRest_ok_kwargs (f : Value → Value → List (List Char))
    (config : Dict) (re : Dict) (cfg d1 : Dict) (mn : Value)
    (res : InstantiateOk)
    (h : (instantiateRest f config (Option.some re) cfg d1 mn).outcome
      = .ok res) :
    res.kwargs =
      runtimeEnvironmentStep res.config_with_defaults re
        (f res.module_name res.class_name) := by
  unfold instantiateRest at h
  cases hb : ((alistGet cfg classNameKey).getD Value.none).isNone with
  | true =>
    simp only [hb] at h
    cases hd : alistGet d1 classNameKey with
    | none => simp [hd] at h
    | some cn =>
      simp only [hd] at h
      exact instantiateFinish_ok_kwargs _ _ _ _ _ _ _ _ h
  | false =>
    simp only [hb] at h
    exact instantiateFinish_ok_kwargs _ _ _ _ _ _ _ _ h

theorem instantiateRest_ok_defaults_after
    (f : Value → Value → List (List Char))
    (config : Dict) (ro : Option Dict) (cfg d1 : Dict) (mn : Value)
    (res : InstantiateOk)
    (h : (instantiateRest f config ro cfg d1 mn).outcome = .ok res) :
    (instantiateRest f config ro cfg d1 mn).config_defaults_after =
      alistErase d1 classNameKey := by
  unfold instantiateRest at h ⊢
  cases hb : ((alistGet cfg classNameKey).getD Value.none).isNone with
  | true =>
    simp only [hb] at h ⊢
    cases hd : alistGet d1 classNameKey with
    | none => simp [hd] at h
    | some cn => simp only [hd, instantiateFinish_defaults_after]
  | false => simp only [hb, instantiateFinish_defaults_after]

theorem instantiate_config_after (f : Value → Value → List (List Char))
    (config : Dict) (ro : Option Dict) (dflts : Option Dict) :
    (instantiate_class_from_config f config ro dflts).config_after
      = config := by
  unfold instantiate_class_from_config
  cases hb : ((alistGet config moduleNameKey).getD Value.none).isNone with
  | true =>
    simp only [hb]
    cases hd : alistGet (dflts.getD []) moduleNameKey with
    | none => rfl
    | some mn => simp only [hd, instantiateRest_config_after]
  | false => simp only [hb, instantiateRest_config_after]

theorem instantiate_defaults_after (f : Value → Value → List (List Char))
    (config : Dict) (ro : Option Dict) (dflts : Option Dict)
    (k : List Char) (hk1 : k ≠ moduleNameKey) (hk2 : k ≠ classNameKey) :
    alistGet
        (instantiate_class_from_config f config ro dflts).config_defaults_after
        k
      = alistGet (dflts.getD []) k := by
  unfold instantiate_class_from_config
  cases hb : ((alistGet config moduleNameKey).getD Value.none).isNone with
  | true =>
    simp only [hb]
    cases hd : alistGet (dflts.getD []) moduleNameKey with
    | none => rfl
    | some mn =>
      simp only [hd]
      rw [instantiateRest_defaults_after _ _ _ _ _ _ _ hk2]
      exact alistGet_erase_ne _ _ _ hk1
  | false =>
    simp only [hb]
    rw [instantiateRest_defaults_after _ _ _ _ _ _ _ hk2]
    exact alistGet_erase_ne _ _ _ hk1

theorem instantiate_ok_module_of_config
    (f : Value → Value → List (List Char))
    (config : Dict) (ro : Option Dict) (dflts : Option Dict)
    (res : InstantiateOk) (m : Value)
    (hm : alistGet config moduleNameKey = Option.some m)
    (hmn : m.isNone = false)
    (h : (instantiate_class_from_config f config ro dflts).outcome
      = .ok res) :
    res.module_name = m := by
  unfold instantiate_class_from_config at h
  simp only [hm, Option.getD_some, hmn] at h
  exact instantiateRest_ok_module _ _ _ _ _ _ _ h

theorem instantiate_ok_module_of_defaults
    (f : Value → Value → List (List Char))
    (config : Dict) (ro : Option Dict) (dflts : Option Dict)
    (res : InstantiateOk) (m : Value)
    (hm : ((alistGet config moduleNameKey).getD Value.none).isNone = true)
    (hd : alistGet (dflts.getD []) moduleNameKey = Option.some m)
    (h : (instantiate_class_from_config f config ro dflts).outcome
      = .ok res) :
    res.module_name = m := by
  unfold instantiate_class_from_config at h
  simp only [hm, hd] at h
  exact instantiateRest_ok_module _ _ _ _ _ _ _ h

theorem instantiate_error_module_missing
    (f : Value → Value → List (List Char))
    (config : Dict) (ro : Option Dict) (dflts : Option Dict)
    (hm : ((alistGet config moduleNameKey).getD Value.none).isNone = true)
    (hd : alistGet (dflts.getD []) moduleNameKey = Option.none) :
    (instantiate_class_from_config f config ro dflts).outcome
      = .error .keyError := by
  unfold instantiate_class_from_config
  simp only [hm, hd]

theorem instantiate_ok_class_of_config
    (f : Value → Value → List (List Char))
    (config : Dict) (ro : Option Dict) (dflts : Option Dict)
    (res : InstantiateOk) (cn : Value)
    (hc : alistGet config classNameKey = Option.some cn)
    (hcn : cn.isNone = false)
    (h : (instantiate_class_from_config f config ro dflts).outcome
      = .ok res) :
    res.class_name = cn := by
  have hc2 : alistGet (alistErase config moduleNameKey) classNameKey
      = Option.some cn := by
    rw [alistGet_erase_ne _ _ _ (by decide)]
    exact hc
  unfold instantiate_class_from_config at h
  cases hb : ((alistGet config moduleNameKey).getD Value.none).isNone with
  | true =>
    simp only [hb] at h
    cases hd : alistGet (dflts.getD []) moduleNameKey with
    | none => simp [hd] at h
    | some mn =>
      simp only [hd] at h
      exact instantiateRest_ok_class_of_config _ _ _ _ _ _ _ _ hc2 hcn h
  | false =>
    simp only [hb] at h
    exact instantiateRest_ok_class_of_config _ _ _ _ _ _ _ _ hc2 hcn h

theorem instantiate_ok_kwargs (f : Value → Value → List (List Char))
    (config : Dict) (re : Dict) (dflts : Option Dict)
    (res : InstantiateOk)
    (h : (instantiate_class_from_config f config (Option.some re)
        dflts).outcome = .ok res) :
    res.kwargs =
      runtimeEnvironmentStep res.config_with_defaults re
        (f res.module_name res.class_name) := by
  unfold instantiate_class_from_config at h
  cases hb : ((alistGet config moduleNameKey).getD Value.none).isNone with
  | true =>
    simp only [hb] at h
    cases hd : alistGet (dflts.getD []) moduleNameKey with
    | none => simp [hd] at h
    | some mn =>
      simp only [hd] at h
      exact instantiateRest_ok_kwargs _ _ _ _ _ _ _ h
  | false =>
    simp only [hb] at h
    exact instantiateRest_ok_kwargs _ _ _ _ _ _ _ h

theorem instantiate_ok_defaults_after
    (f : Value → Value → List (List Char))
    (config : Dict) (ro : Option Dict) (dflts : Option Dict)
    (res : InstantiateOk)
    (h : (instantiate_class_from_config f config ro dflts).outcome
      = .ok res) :
    (instantiate_class_from_config f config ro dflts).config_defaults_after
      = alistErase (alistErase (dflts.getD []) moduleNameKey)
          classNameKey := by
  unfold instantiate_class_from_config at h ⊢
  cases hb : ((alistGet config moduleNameKey).getD Value.none).isNone with
  | true =>
    simp only [hb] at h ⊢
    cases hd : alistGet (dflts.getD []) moduleNameKey with
    | none => simp [hd] at h
    | some mn =>
      simp only [hd] at h ⊢
      exact instantiateRest_ok_defaults_after _ _ _ _ _ _ _ h
  | false =>
    simp only [hb] at h ⊢
    exact instantiateRest_ok_defaults_after _ _ _ _ _ _ _ h

theorem instantiate_ok_class_of_defaults
    (f : Value → Value → List (List Char))
    (config : Dict) (ro : Option Dict) (dflts : Option Dict)
    (res : InstantiateOk) (cn : Value)
    (hcn : ((alistGet config classNameKey).getD Value.none).isNone = true)
    (hd : alistGet (dflts.getD []) classNameKey = Option.some cn)
    (h : (instantiate_class_from_config f config ro dflts).outcome
      = .ok res) :
    res.class_name = cn := by
  have hc2 : ((alistGet (alistErase config moduleNameKey)
      classNameKey).getD Value.none).isNone = true := by
    rw [alistGet_erase_ne _ _ _ (by decide)]
    exact hcn
  have hd2 : alistGet (alistErase (dflts.getD []) moduleNameKey)
      classNameKey = Option.some cn := by
    rw [alistGet_erase_ne _ _ _ (by decide)]
    exact hd
  unfold instantiate_class_from_config at h
  cases hb : ((alistGet config moduleNameKey).getD Value.none).isNone with
  | true =>
    simp only [hb] at h
    cases hd0 : alistGet (dflts.getD []) moduleNameKey with
    | none => simp [hd0] at h
    | some mn =>
      simp only [hd0] at h
      exact instantiateRest_ok_class_of_defaults _ _ _ _ _ _ _ _ hc2 hd2 h
  | false =>
    simp only [hb] at h
    exact instantiateRest_ok_class_of_defaults _ _ _ _ _ _ _ _ hc2 hd2 h

theorem instantiate_error_class_missing
    (f : Value → Value → List (List Char))
    (config : Dict) (ro : Option Dict) (dflts : Option Dict)
    (hmod : ((alistGet config moduleNameKey).getD Value.none).isNone = false
      ∨ ∃ m, alistGet (dflts.getD []) moduleNameKey = Option.some m)
    (hcn : ((alistGet config classNameKey).getD Value.none).isNone = true)
    (hdn : alistGet (dflts.getD []) classNameKey = Option.none) :
    (instantiate_class_from_config f config ro dflts).outcome
      = .error .keyError := by
  have hc2 : ((alistGet (alistErase config moduleNameKey)
      classNameKey).getD Value.none).isNone = true := by
    rw [alistGet_erase_ne _ _ _ (by decide)]
    exact hcn
  have hd2 : alistGet (alistErase (dflts.getD []) moduleNameKey)
      classNameKey = Option.none := by
    rw [alistGet_erase_ne _ _ _ (by decide)]
    exact hdn
  unfold instantiate_class_from_config
  cases hb : ((alistGet config moduleNameKey).getD Value.none).isNone with
  | true =>
    simp only [hb]
    rcases hmod with hml | ⟨m, hm⟩
    · rw [hb] at hml
      exact absurd hml (by decide)
    · simp only [hm]
      exact instantiateRest_error_class_missing _ _ _ _ _ _ hc2 hd2
  | false =>
    simp only [hb]
    exact instantiateRest_error_class_missing _ _ _ _ _ _ hc2 hd2

/-! ### Environment lemmas for the substitution engine -/

theorem getenvTruthy_erase_of_empty (env : EnvMap) (name : List Char)
    (h : alistGet env name = Option.some []) (n : List Char) :
    getenvTruthy env n = getenvTruthy (alistErase env name) n := by
  by_cases hn : n = name
  · subst hn
    rw [getenvTruthy, getenvTruthy, h, alistGet_erase_self]
    simp
  · rw [getenvTruthy, getenvTruthy, alistGet_erase_ne _ _ _ hn]

theorem substitutionLoop_env_congr (env1 env2 : EnvMap) (store : Dict)
    (h : ∀ n, getenvTruthy env1 n = getenvTruthy env2 n) :
    ∀ (fuel : Nat) (s : List Char) (cands : List SubstitutionCandidate),
    substitutionLoop env1 store fuel s cands
      = substitutionLoop env2 store fuel s cands := by
  intro fuel
  induction fuel with
  | zero =>
    intro s cands
    cases cands with
    | nil => rfl
    | cons c rest => rfl
  | succ n ih =>
    intro s cands
    cases cands with
    | nil => rfl
    | cons c rest =>
      simp only [substitutionLoop]
      rw [h c.clean_match]
      cases getenvTruthy env2 c.clean_match with
      | some v => exact ih _ _
      | none =>
        cases alistGet store c.clean_match with
        | none => rfl
        | some v =>
          cases v with
          | str w => exact ih _ _
          | none => rfl
          | int m => rfl
          | bool b => rfl
          | dict e => rfl
          | list l => rfl

theorem substitute_env_congr (fuel : Nat) (env1 env2 : EnvMap)
    (store : Dict) (t : Value)
    (h : ∀ n, getenvTruthy env1 n = getenvTruthy env2 n) :
    substitute_config_variable fuel env1 t store
      = substitute_config_variable fuel env2 t store := by
  cases t with
  | str s =>
    simp only [substitute_config_variable]
    cases hf : find_substitution_candidates s with
    | nil => rfl
    | cons c rest =>
      cases rest with
      | nil =>
        dsimp only
        rw [h c.clean_match]
      | cons c2 rest2 =>
        exact congrArg (Except.map Value.str)
          (substitutionLoop_env_congr _ _ _ h fuel s _)
  | none => rfl
  | int n => rfl
  | bool b => rfl
  | dict e => rfl
  | list l => rfl

/-! ### Finder invariants -/

theorem findAux_start_le :
    ∀ (fuel : Nat) (chars : List Char) (pos : Nat)
      (c : SubstitutionCandidate), c ∈ findAux fuel chars pos →
      pos ≤ c.start := by
  intro fuel
  induction fuel with
  | zero => intro chars pos c hc; simp [findAux] at hc
  | succ n ih =>
    intro chars pos c hc
    cases chars with
    | nil => simp [findAux] at hc
    | cons ch cs =>
      simp only [findAux] at hc
      by_cases h1 : ch = '$'
      · rw [if_pos h1] at hc
        cases cs with
        | nil => simp at hc
        | cons c2 cs2 =>
          dsimp only at hc
          by_cases h2 : c2 = '\x7b'
          · rw [if_pos h2] at hc
            cases hsb : scanBrace cs2 with
            | some pr =>
              obtain ⟨content, rest⟩ := pr
              simp only [hsb, List.mem_cons] at hc
              rcases hc with rfl | hc
              · exact Nat.le_refl _
              · exact Nat.le_trans (Nat.le_add_right _ _) (ih _ _ _ hc)
            | none =>
              simp only [hsb] at hc
              exact Nat.le_trans (Nat.le_succ _) (ih _ _ _ hc)
          · rw [if_neg h2] at hc
            by_cases h3 : isIdentStart c2 = true
            · rw [if_pos h3] at hc
              simp only [List.mem_cons] at hc
              rcases hc with rfl | hc
              · exact Nat.le_refl _
              · exact Nat.le_trans (Nat.le_add_right _ _) (ih _ _ _ hc)
            · rw [if_neg h3] at hc
              exact Nat.le_trans (Nat.le_succ _) (ih _ _ _ hc)
      · rw [if_neg h1] at hc
        exact Nat.le_trans (Nat.le_succ _) (ih _ _ _ hc)

theorem findAux_pairwise :
    ∀ (fuel : Nat) (chars : List Char) (pos : Nat),
    (findAux fuel chars pos).Pairwise (fun a b => a.start < b.start) := by
  intro fuel
  induction fuel with
  | zero => intro chars pos; simp [findAux]
  | succ n ih =>
    intro chars pos
    cases chars with
    | nil => simp [findAux]
    | cons ch cs =>
      simp only [findAux]
      by_cases h1 : ch = '$'
      · rw [if_pos h1]
        cases cs with
        | nil => simp
        | cons c2 cs2 =>
          dsimp only
          by_cases h2 : c2 = '\x7b'
          · rw [if_pos h2]
            cases hsb : scanBrace cs2 with
            | some pr =>
              obtain ⟨content, rest⟩ := pr
              dsimp only
              refine List.Pairwise.cons ?_ (ih _ _)
              intro b hb
              have h4 := findAux_start_le n rest
                (pos + ('$' :: '\x7b' :: (content ++ ['\x7d'])).length) b hb
              have h5 : 0 < ('$' :: '\x7b' :: (content ++ ['\x7d'])).length := by
                simp
              dsimp only at h4 ⊢
              omega
            | none => exact ih _ _
          · rw [if_neg h2]
            by_cases h3 : isIdentStart c2 = true
            · rw [if_pos h3]
              refine List.Pairwise.cons ?_ (ih _ _)
              intro b hb
              have h4 := findAux_start_le n (scanIdent cs2).2
                (pos + ('$' :: c2 :: (scanIdent cs2).1).length) b hb
              have h5 : 0 < ('$' :: c2 :: (scanIdent cs2).1).length := by simp
              dsimp only at h4 ⊢
              omega
            · rw [if_neg h3]
              exact ih _ _
      · rw [if_neg h1]
        exact ih _ _

theorem findAux_matchText_shape :
    ∀ (fuel : Nat) (chars : List Char) (pos : Nat)
      (c : SubstitutionCandidate), c ∈ findAux fuel chars pos →
      ∀ (ch : Char) (t : List Char), c.matchText = '$' :: ch :: t →
      ch ≠ '\x7b' → isIdentStart ch = true := by
  intro fuel
  induction fuel with
  | zero => intro chars pos c hc; simp [findAux] at hc
  | succ n ih =>
    intro chars pos c hc
    cases chars with
    | nil => simp [findAux] at hc
    | cons ch0 cs =>
      simp only [findAux] at hc
      by_cases h1 : ch0 = '$'
      · rw [if_pos h1] at hc
        cases cs with
        | nil => simp at hc
        | cons c2 cs2 =>
          dsimp only at hc
          by_cases h2 : c2 = '\x7b'
          · rw [if_pos h2] at hc
            cases hsb : scanBrace cs2 with
            | some pr =>
              obtain ⟨content, rest⟩ := pr
              simp only [hsb, List.mem_cons] at hc
              rcases hc with rfl | hc
              · intro ch t hm hne
                have hm2 : '$' :: '\x7b' :: (content ++ ['\x7d'])
                    = '$' :: ch :: t := hm
                injection hm2 with h7 h8
                injection h8 with h9 h10
                exact absurd h9.symm hne
              · exact ih _ _ _ hc
            | none =>
              simp only [hsb] at hc
              exact ih _ _ _ hc
          · rw [if_neg h2] at hc
            by_cases h3 : isIdentStart c2 = true
            · rw [if_pos h3] at hc
              simp only [List.mem_cons] at hc
              rcases hc with rfl | hc
              · intro ch t hm hne
                have hm2 : '$' :: c2 :: (scanIdent cs2).1
                    = '$' :: ch :: t := hm
                injection hm2 with h7 h8
                injection h8 with h9 h10
                rw [← h9]
                exact h3
              · exact ih _ _ _ hc
            · rw [if_neg h3] at hc
              exact ih _ _ _ hc
      · rw [if_neg h1] at hc
        exact ih _ _ _ hc

/-! ### Claim theorems -/

/-- Claim C1, counterexample: with the variable store mapping A to the
string holding a B placeholder and B to final, substituting the sole-A
template does not return final: the re-scan of the single-candidate branch
is commented out in the source (util.py lines 204-206), so the nested
placeholder is left unexpanded. -/
theorem claim_C1_counterexample :
    substitute_config_variable 5 [] (.str "$\x7bA\x7d".data)
      [("A".data, .str "$\x7bB\x7d".data), ("B".data, .str "final".data)]
    ≠ .ok (.str "final".data) := by
  intro h
  exact absurd (congrArg strOfResult h) (by decide)

/-- Claim C1, amended: with the variable store mapping A to a string
holding a B placeholder, substituting the sole-A template performs exactly
one splice and returns the unexpanded B placeholder, for every fuel bound
(the single-candidate branch never reaches the loop). -/
theorem claim_C1_amended :
    ∀ fuel : Nat,
    substitute_config_variable fuel [] (.str "$\x7bA\x7d".data)
      [("A".data, .str "$\x7bB\x7d".data), ("B".data, .str "final".data)]
    = .ok (.str "$\x7bB\x7d".data) := fun _ => rfl

/-- Claim C1, witness: the amended statement at fuel 7. -/
theorem claim_C1_witness :
    substitute_config_variable 7 [] (.str "$\x7bA\x7d".data)
      [("A".data, .str "$\x7bB\x7d".data), ("B".data, .str "final".data)]
    = .ok (.str "$\x7bB\x7d".data) := claim_C1_amended 7

/-- Claim C2, counterexample: a length-changing environment splice in the
two-candidate branch (A set to the two-character xx, replacing a
four-character placeholder) leaves the queued B candidate with stale
offsets, so B is not replaced at the span where its placeholder actually
occurs; the correct-position result would end in b after the xx prefix. -/
theorem claim_C2_counterexample :
    substitute_config_variable 10 [("A".data, "xx".data)]
      (.str "$\x7bA\x7d$\x7bB\x7d".data) [("B".data, .str "b".data)]
    ≠ .ok (.str "xxb".data) := by
  intro h
  exact absurd (congrArg strOfResult h) (by decide)

/-- Claim C2, amended: in the many-candidates loop, a variable-store
splice replaces the whole queue by a fresh scan of the spliced string, so
offsets are recomputed globally after store splices only; an
environment-variable splice keeps the queued pre-splice offsets, and when
the environment value changes the length the remaining candidates are
spliced at stale positions, as the concrete two-placeholder run shows. -/
theorem claim_C2_amended :
    (∀ (fuel : Nat) (env : EnvMap) (store : Dict) (s : List Char)
       (c : SubstitutionCandidate) (rest : List SubstitutionCandidate)
       (v : List Char),
       getenvTruthy env c.clean_match = Option.none →
       alistGet store c.clean_match = Option.some (.str v) →
       substitutionLoop env store (fuel + 1) s (c :: rest) =
         substitutionLoop env store fuel (splice s c v)
           (find_substitution_candidates (splice s c v)))
    ∧ substitute_config_variable 10 [("A".data, "xx".data)]
        (.str "$\x7bA\x7d$\x7bB\x7d".data) [("B".data, .str "b".data)]
      = .ok (.str "xx$\x7bb".data) := by
  constructor
  · intro fuel env store s c rest v henv hstore
    simp only [substitutionLoop, henv, hstore]
  · rfl

/-- Claim C2, witness: the store-splice re-scan equation at a concrete
two-candidate state. -/
theorem claim_C2_witness :
    substitutionLoop [] [("A".data, .str "zz".data)] 2
      "$\x7bA\x7d$\x7bA\x7d".data
      [⟨"$\x7bA\x7d".data, "A".data, 0, 4⟩,
       ⟨"$\x7bA\x7d".data, "A".data, 4, 8⟩]
    = substitutionLoop [] [("A".data, .str "zz".data)] 1
        "zz$\x7bA\x7d".data
        (find_substitution_candidates "zz$\x7bA\x7d".data) :=
  claim_C2_amended.1 1 [] [("A".data, .str "zz".data)]
    "$\x7bA\x7d$\x7bA\x7d".data ⟨"$\x7bA\x7d".data, "A".data, 0, 4⟩
    [⟨"$\x7bA\x7d".data, "A".data, 4, 8⟩] "zz".data rfl rfl

/-- Claim C3: with a single candidate whose name misses the environment
and maps to a non-string store value, the value is returned as-is exactly
when the matched text is the whole template, and the unsupported
substitution error is raised otherwise. -/
theorem claim_C3 :
    ∀ (fuel : Nat) (env : EnvMap) (store : Dict) (s : List Char)
      (c : SubstitutionCandidate) (v : Value),
    find_substitution_candidates s = [c] →
    getenvTruthy env c.clean_match = Option.none →
    alistGet store c.clean_match = Option.some v →
    v.isStr = false →
    ((c.matchText = s →
        substitute_config_variable fuel env (.str s) store = .ok v)
     ∧ (c.matchText ≠ s →
        substitute_config_variable fuel env (.str s) store
          = .error .unsupportedSubstitution)) := by
  intro fuel env store s c v hfind henv hstore hstr
  constructor
  · intro hm
    cases v with
    | str w => simp [Value.isStr] at hstr
    | none =>
      simp only [substitute_config_variable, hfind, henv, hstore]
      rw [if_pos hm]
    | int n =>
      simp only [substitute_config_variable, hfind, henv, hstore]
      rw [if_pos hm]
    | bool b =>
      simp only [substitute_config_variable, hfind, henv, hstore]
      rw [if_pos hm]
    | dict e =>
      simp only [substitute_config_variable, hfind, henv, hstore]
      rw [if_pos hm]
    | list l =>
      simp only [substitute_config_variable, hfind, henv, hstore]
      rw [if_pos hm]
  · intro hm
    cases v with
    | str w => simp [Value.isStr] at hstr
    | none =>
      simp only [substitute_config_variable, hfind, henv, hstore]
      rw [if_neg hm]
    | int n =>
      simp only [substitute_config_variable, hfind, henv, hstore]
      rw [if_neg hm]
    | bool b =>
      simp only [substitute_config_variable, hfind, henv, hstore]
      rw [if_neg hm]
    | dict e =>
      simp only [substitute_config_variable, hfind, henv, hstore]
      rw [if_neg hm]
    | list l =>
      simp only [substitute_config_variable, hfind, henv, hstore]
      rw [if_neg hm]

/-- Claim C3, witness: an integer store value behind a placeholder with a
leading literal character raises the unsupported substitution error. -/
theorem claim_C3_witness :
    substitute_config_variable 1 [] (.str "x$\x7bPORT\x7d".data)
      [("PORT".data, .int 5432)]
      = .error .unsupportedSubstitution :=
  (claim_C3 1 [] [("PORT".data, .int 5432)] "x$\x7bPORT\x7d".data
    ⟨"$\x7bPORT\x7d".data, "PORT".data, 1, 8⟩ (.int 5432)
    (by decide) rfl rfl rfl).2 (by decide)

/-- Claim C4: the environment is consulted first for every placeholder and
its value is used exactly when set non-empty: a single-candidate template
resolves from the environment whatever the store holds; a queued candidate
in the loop does the same; an environment entry set to the empty string
behaves identically to an absent entry for every template and store; and
the concrete HOST example resolves to env-host over dict-host. -/
theorem claim_C4 :
    (∀ (fuel : Nat) (env : EnvMap) (store : Dict) (s : List Char)
       (c : SubstitutionCandidate) (v : List Char),
       find_substitution_candidates s = [c] →
       getenvTruthy env c.clean_match = Option.some v →
       substitute_config_variable fuel env (.str s) store
         = .ok (.str (splice s c v)))
    ∧ (∀ (fuel : Nat) (env : EnvMap) (store : Dict) (s : List Char)
        (c : SubstitutionCandidate) (rest : List SubstitutionCandidate)
        (v : List Char),
        getenvTruthy env c.clean_match = Option.some v →
        substitutionLoop env store (fuel + 1) s (c :: rest)
          = substitutionLoop env store fuel (splice s c v) rest)
    ∧ (∀ (fuel : Nat) (env : EnvMap) (store : Dict) (t : Value)
        (name : List Char),
        alistGet env name = Option.some [] →
        substitute_config_variable fuel env t store
          = substitute_config_variable fuel (alistErase env name) t store)
    ∧ substitute_config_variable 1 [("HOST".data, "env-host".data)]
        (.str "$\x7bHOST\x7d".data) [("HOST".data, .str "dict-host".data)]
      = .ok (.str "env-host".data) := by
  refine ⟨?_, ?_, ?_, rfl⟩
  · intro fuel env store s c v hfind henv
    simp only [substitute_config_variable, hfind, henv]
  · intro fuel env store s c rest v henv
    simp only [substitutionLoop, henv]
  · intro fuel env store t name h
    exact substitute_env_congr fuel env _ store t
      (getenvTruthy_erase_of_empty env name h)

/-- Claim C4, witness: environment resolution of a single placeholder with
a populated store. -/
theorem claim_C4_witness :
    substitute_config_variable 2 [("X".data, "yy".data)]
      (.str "$\x7bX\x7d".data) [("X".data, .str "s".data)]
      = .ok (.str "yy".data) :=
  claim_C4.1 2 [("X".data, "yy".data)] [("X".data, .str "s".data)]
    "$\x7bX\x7d".data ⟨"$\x7bX\x7d".data, "X".data, 0, 4⟩ "yy".data
    (by decide) rfl

/-- Claim C6: when the head candidate resolves in neither the environment
nor the store, substitution raises the missing-variable error carrying the
clean name, in the single-candidate branch and in the loop alike. -/
theorem claim_C6 :
    ∀ (fuel : Nat) (env : EnvMap) (store : Dict) (s : List Char)
      (c : SubstitutionCandidate) (rest : List SubstitutionCandidate),
    find_substitution_candidates s = c :: rest →
    getenvTruthy env c.clean_match = Option.none →
    alistGet store c.clean_match = Option.none →
    substitute_config_variable (fuel + 1) env (.str s) store
      = .error (.missingConfigVariable c.clean_match) := by
  intro fuel env store s c rest hfind henv hstore
  cases rest with
  | nil => simp only [substitute_config_variable, hfind, henv, hstore]
  | cons c2 rest2 =>
    simp only [substitute_config_variable, hfind, substitutionLoop, henv,
      hstore, Except.map]

/-- Claim C6, witness: the UNKNOWN placeholder with empty environment and
empty store fails carrying UNKNOWN. -/
theorem claim_C6_witness :
    substitute_config_variable 1 [] (.str "$\x7bUNKNOWN\x7d".data) []
      = .error (.missingConfigVariable "UNKNOWN".data) :=
  claim_C6 0 [] [] "$\x7bUNKNOWN\x7d".data
    ⟨"$\x7bUNKNOWN\x7d".data, "UNKNOWN".data, 0, 10⟩ []
    (by decide) rfl rfl

/-- Claim C8, code bug: a non-string, non-None scalar leaf is not returned
unchanged; it raises TypeError (re.finditer rejects non-strings at util.py
line 116, and util.py line 330 passes every scalar leaf to it), both bare
and inside a mapping, while string leaves do traverse with shape
preserved. -/
theorem claim_C8_code_bug :
    substitute_all_config_variables 1 [] (.int 5) [] = .error .typeError
    ∧ substitute_all_config_variables 1 []
        (.dict [("k".data, .bool true)]) [] = .error .typeError
    ∧ substitute_all_config_variables 1 []
        (.dict [("k".data, .list [.str "$\x7bA\x7d".data,
          .dict [("k2".data, .str "$\x7bA\x7d".data)]])])
        [("A".data, .str "x".data)]
      = .ok (.dict [("k".data, .list [.str "x".data,
          .dict [("k2".data, .str "x".data)]])]) :=
  ⟨rfl, rfl, rfl⟩

/-- Claim C9: candidates are produced in strictly increasing start order
for every template; every candidate whose text is a dollar followed by a
non-brace character starts its name with an identifier-start character, so
a digit-leading bare form is never a candidate; the concrete digit
examples and the empty template behave as stated. -/
theorem claim_C9 :
    (∀ s : List Char, (find_substitution_candidates s).Pairwise
        (fun a b => a.start < b.start))
    ∧ (∀ (s : List Char) (c : SubstitutionCandidate),
        c ∈ find_substitution_candidates s →
        ∀ (ch : Char) (t : List Char), c.matchText = '$' :: ch :: t →
        ch ≠ '\x7b' → isIdentStart ch = true)
    ∧ find_substitution_candidates "$1abc".data = []
    ∧ find_substitution_candidates "$\x7b1abc\x7d".data
        = [⟨"$\x7b1abc\x7d".data, "1abc".data, 0, 7⟩]
    ∧ find_substitution_candidates [] = [] :=
  ⟨fun _ => findAux_pairwise _ _ _,
   fun _ c hc => findAux_matchText_shape _ _ _ c hc,
   by decide, by decide, rfl⟩

/-- Claim C9, witness: strictly increasing starts on a concrete
two-placeholder template. -/
theorem claim_C9_witness :
    (find_substitution_candidates "$A $B".data).Pairwise
      (fun a b => a.start < b.start) :=
  claim_C9.1 "$A $B".data

/-- Claim C5, counterexample: the constructor declares a parameter named
runtime_environment, but the key is already present in the merged
config/defaults set, so the whole runtime-environment mapping is not
injected: the construction call keeps the config value instead of the
mapping. -/
theorem claim_C5_counterexample :
    (match (instantiate_class_from_config (fun _ _ => [runtimeEnvironmentKey])
        [(moduleNameKey, .str "m".data), (classNameKey, .str "c".data),
         (runtimeEnvironmentKey, .str "x".data)]
        (Option.some []) Option.none).outcome with
     | .ok r => alistGet r.kwargs runtimeEnvironmentKey
     | .error _ => Option.none)
      = Option.some (Value.str "x".data)
    ∧ Value.str "x".data ≠ Value.dict [] := by
  refine ⟨rfl, fun h => ?_⟩
  exact absurd (congrArg Value.tag h) (by decide)

/-- Claim C5, amended: for a declared constructor parameter absent from
the merged config/defaults set, the construction call receives the
runtime-environment value when the parameter is not literally named
runtime_environment; a declared parameter literally named
runtime_environment that is absent from the merged set receives the whole
runtime-environment mapping (overriding any value the requested-entry
update gave it). -/
theorem claim_C5_amended :
    ∀ (f : Value → Value → List (List Char)) (config : Dict) (re : Dict)
      (dflts : Option Dict) (res : InstantiateOk) (p : List Char),
    (instantiate_class_from_config f config (Option.some re) dflts).outcome
      = .ok res →
    p ∈ f res.module_name res.class_name →
    alistGet res.config_with_defaults p = Option.none →
    ((p ≠ runtimeEnvironmentKey → ∀ v : Value,
        alistGet re p = Option.some v →
        alistGet res.kwargs p = Option.some v)
     ∧ (p = runtimeEnvironmentKey →
        alistGet res.kwargs p = Option.some (.dict re))) := by
  intro f config re dflts res p h hmem hnone
  rw [instantiate_ok_kwargs f config re dflts res h]
  exact runtimeEnvironmentStep_lookup res.config_with_defaults re
    (f res.module_name res.class_name) p hmem hnone

/-- Claim C5, witness: a declared conn parameter missing from config and
defaults is filled from the runtime environment. -/
theorem claim_C5_witness :
    (match (instantiate_class_from_config (fun _ _ => ["conn".data])
        [(moduleNameKey, .str "m".data), (classNameKey, .str "c".data)]
        (Option.some [("conn".data, .int 1)]) Option.none).outcome with
     | .ok r => alistGet r.kwargs "conn".data
     | .error _ => Option.none) = Option.some (Value.int 1) :=
  (claim_C5_amended (fun _ _ => ["conn".data])
    [(moduleNameKey, .str "m".data), (classNameKey, .str "c".data)]
    [("conn".data, .int 1)] Option.none _ "conn".data rfl
    (by decide) rfl).1 (by decide) (.int 1) rfl

/-- Claim C7, counterexample: a module_name key present in config with a
None value is treated as absent: the loader receives the defaults value
pkg, not the config value None, so taking the name from config whenever
the key is present does not hold. -/
theorem claim_C7_counterexample :
    (match (instantiate_class_from_config (fun _ _ => [])
        [(moduleNameKey, Value.none), (classNameKey, .str "C".data)]
        Option.none
        (Option.some [(moduleNameKey, .str "pkg".data)])).outcome with
     | .ok r => r.module_name
     | .error _ => Value.none)
      = Value.str "pkg".data
    ∧ Value.str "pkg".data ≠ Value.none := by
  refine ⟨rfl, fun h => ?_⟩
  exact absurd (congrArg Value.tag h) (by decide)

/-- Claim C7, amended: module_name and class_name are each taken from
config when present there with a non-None value (a None value counts as
absent); otherwise each is taken from config_defaults; resolution fails
with the KeyError kind when config supplies no non-None module_name and
config_defaults lacks the key, and likewise for class_name once
module_name is resolvable; on every successful call both keys are removed
from config_defaults; the concrete pkg.mod/Foo example behaves as stated,
consuming module_name from the defaults, and the mirrored example
consumes class_name from the defaults. -/
theorem claim_C7_amended :
    (∀ (f : Value → Value → List (List Char)) (config : Dict)
       (ro : Option Dict) (dflts : Option Dict) (res : InstantiateOk)
       (m : Value),
       alistGet config moduleNameKey = Option.some m → m.isNone = false →
       (instantiate_class_from_config f config ro dflts).outcome = .ok res →
       res.module_name = m)
    ∧ (∀ (f : Value → Value → List (List Char)) (config : Dict)
        (ro : Option Dict) (dflts : Option Dict) (res : InstantiateOk)
        (cn : Value),
        alistGet config classNameKey = Option.some cn → cn.isNone = false →
        (instantiate_class_from_config f config ro dflts).outcome = .ok res →
        res.class_name = cn)
    ∧ (∀ (f : Value → Value → List (List Char)) (config : Dict)
        (ro : Option Dict) (dflts : Option Dict) (res : InstantiateOk)
        (m : Value),
        ((alistGet config moduleNameKey).getD Value.none).isNone = true →
        alistGet (dflts.getD []) moduleNameKey = Option.some m →
        (instantiate_class_from_config f config ro dflts).outcome = .ok res →
        res.module_name = m)
    ∧ (∀ (f : Value → Value → List (List Char)) (config : Dict)
        (ro : Option Dict) (dflts : Option Dict) (res : InstantiateOk)
        (cn : Value),
        ((alistGet config classNameKey).getD Value.none).isNone = true →
        alistGet (dflts.getD []) classNameKey = Option.some cn →
        (instantiate_class_from_config f config ro dflts).outcome = .ok res →
        res.class_name = cn)
    ∧ (∀ (f : Value → Value → List (List Char)) (config : Dict)
        (ro : Option Dict) (dflts : Option Dict),
        ((alistGet config moduleNameKey).getD Value.none).isNone = true →
        alistGet (dflts.getD []) moduleNameKey = Option.none →
        (instantiate_class_from_config f config ro dflts).outcome
          = .error .keyError)
    ∧ (∀ (f : Value → Value → List (List Char)) (config : Dict)
        (ro : Option Dict) (dflts : Option Dict),
        (((alistGet config moduleNameKey).getD Value.none).isNone = false
          ∨ ∃ m, alistGet (dflts.getD []) moduleNameKey = Option.some m) →
        ((alistGet config classNameKey).getD Value.none).isNone = true →
        alistGet (dflts.getD []) classNameKey = Option.none →
        (instantiate_class_from_config f config ro dflts).outcome
          = .error .keyError)
    ∧ (∀ (f : Value → Value → List (List Char)) (config : Dict)
        (ro : Option Dict) (dflts : Option Dict) (res : InstantiateOk),
        (instantiate_class_from_config f config ro dflts).outcome = .ok res →
        alistGet (instantiate_class_from_config f config ro
            dflts).config_defaults_after moduleNameKey = Option.none
        ∧ alistGet (instantiate_class_from_config f config ro
            dflts).config_defaults_after classNameKey = Option.none)
    ∧ instantiate_class_from_config (fun _ _ => [])
        [(classNameKey, .str "Foo".data)] Option.none
        (Option.some [(moduleNameKey, .str "pkg.mod".data)])
      = { outcome := .ok
            { module_name := .str "pkg.mod".data,
              class_name := .str "Foo".data,
              config_with_defaults := [], kwargs := [] },
          config_after := [(classNameKey, .str "Foo".data)],
          config_defaults_after := [] }
    ∧ instantiate_class_from_config (fun _ _ => [])
        [(moduleNameKey, .str "pkg.mod".data)] Option.none
        (Option.some [(classNameKey, .str "Foo".data)])
      = { outcome := .ok
            { module_name := .str "pkg.mod".data,
              class_name := .str "Foo".data,
              config_with_defaults := [], kwargs := [] },
          config_after := [(moduleNameKey, .str "pkg.mod".data)],
          config_defaults_after := [] } := by
  refine ⟨?_, ?_, ?_, ?_, ?_, ?_, ?_, rfl, rfl⟩
  · intro f config ro dflts res m hm hmn h
    exact instantiate_ok_module_of_config f config ro dflts res m hm hmn h
  · intro f config ro dflts res cn hc hcn h
    exact instantiate_ok_class_of_config f config ro dflts res cn hc hcn h
  · intro f config ro dflts res m hm hd h
    exact instantiate_ok_module_of_defaults f config ro dflts res m hm hd h
  · intro f config ro dflts res cn hcn hd h
    exact instantiate_ok_class_of_defaults f config ro dflts res cn hcn hd h
  · intro f config ro dflts hm hd
    exact instantiate_error_module_missing f config ro dflts hm hd
  · intro f config ro dflts hmod hcn hdn
    exact instantiate_error_class_missing f config ro dflts hmod hcn hdn
  · intro f config ro dflts res h
    rw [instantiate_ok_defaults_after f config ro dflts res h]
    constructor
    · rw [alistGet_erase_ne _ _ _ (by decide)]
      exact alistGet_erase_self _ _
    · exact alistGet_erase_self _ _

/-- Claim C7, witness: module and class names both taken from config. -/
theorem claim_C7_witness :
    (match (instantiate_class_from_config (fun _ _ => [])
        [(moduleNameKey, Value.str "mm".data),
         (classNameKey, Value.str "cc".data)]
        Option.none Option.none).outcome with
     | .ok r => r.module_name
     | .error _ => Value.none) = Value.str "mm".data :=
  claim_C7_amended.1 (fun _ _ => [])
    [(moduleNameKey, Value.str "mm".data),
     (classNameKey, Value.str "cc".data)]
    Option.none Option.none _ (Value.str "mm".data) rfl rfl rfl

/-- Claim C10: for every call the caller config mapping is returned
untouched (the function mutates a deep copy only), and every entry of the
caller config_defaults mapping other than module_name and class_name is
still present with the same value afterwards. -/
theorem claim_C10 :
    ∀ (f : Value → Value → List (List Char)) (config : Dict)
      (ro : Option Dict) (dflts : Option Dict),
    (instantiate_class_from_config f config ro dflts).config_after = config
    ∧ (∀ k : List Char, k ≠ moduleNameKey → k ≠ classNameKey →
       alistGet (instantiate_class_from_config f config ro
           dflts).config_defaults_after k
         = alistGet (dflts.getD []) k) :=
  fun f config ro dflts =>
    ⟨instantiate_config_after f config ro dflts,
     fun k hk1 hk2 => instantiate_defaults_after f config ro dflts k hk1 hk2⟩

/-- Claim C10, witness: a defaults entry named other survives a call
unchanged while the caller config is returned as passed. -/
theorem claim_C10_witness :
    (instantiate_class_from_config (fun _ _ => [])
        [(moduleNameKey, .str "m".data), (classNameKey, .str "c".data)]
        Option.none
        (Option.some [("other".data, .int 3),
          (moduleNameKey, .str "d".data)])).config_after
      = [(moduleNameKey, .str "m".data), (classNameKey, .str "c".data)]
    ∧ alistGet (instantiate_class_from_config (fun _ _ => [])
        [(moduleNameKey, .str "m".data), (classNameKey, .str "c".data)]
        Option.none
        (Option.some [("other".data, .int 3),
          (moduleNameKey, .str "d".data)])).config_defaults_after
        "other".data
      = alistGet [("other".data, Value.int 3),
          (moduleNameKey, Value.str "d".data)] "other".data :=
  ⟨(claim_C10 (fun _ _ => [])
      [(moduleNameKey, .str "m".data), (classNameKey, .str "c".data)]
      Option.none
      (Option.some [("other".data, .int 3),
        (moduleNameKey, .str "d".data)])).1,
   (claim_C10 (fun _ _ => [])
      [(moduleNameKey, .str "m".data), (classNameKey, .str "c".data)]
      Option.none
      (Option.some [("other".data, .int 3),
        (moduleNameKey, .str "d".data)])).2 "other".data
      (by decide) (by decide)⟩
